import Mathlib

/-!
Shallow embedding of the gui-sync synchronization engine (main.go).

The remote object store and the local filesystem are modelled as oracles
(`S3Env`, `LocalFS`); byte sizes and timestamps are integers (Go `int64`,
`time.Time` compared with `After`, i.e. strict `<` on the underlying
instant).  Each Go function of the sync core is translated into a Lean
function of the same name over these oracles.
-/

namespace GuiSync

/-- `multipartThreshold = 100 * 1024 * 1024` from main.go. -/
def multipartThreshold : Int := 100 * 1024 * 1024

/-- Result of `os.Stat` that the change detector reads: size and mod time. -/
structure FileInfo where
  size : Int
  modTime : Int
deriving Repr, DecidableEq

/-- Fields of a successful `HeadObject` response that the code reads. -/
structure RemoteMeta where
  contentLength : Int
  lastModified : Option Int
  eTag : String
deriving Repr, DecidableEq

/-- Outcome of the `HeadObject` call: success, an `awserr.RequestFailure`
with an HTTP status code, or any other error. -/
inductive HeadOutcome where
  | ok (m : RemoteMeta)
  | reqFailure (status : Nat) (msg : String)
  | otherError (msg : String)
deriving Repr, DecidableEq

/-- The remote store, as the change detector sees it: one HEAD oracle. -/
structure S3Env where
  headObject : String → HeadOutcome

/-- The local filesystem, as the change detector sees it: `os.Stat` and
`calculateMD5` oracles, each of which may fail with an error message. -/
structure LocalFS where
  stat : String → Except String FileInfo
  md5 : String → Except String String

/-- Characters Go `strings.TrimSpace` removes (`unicode.IsSpace` for
Latin-1: space, tab, newline, vertical tab, form feed, carriage return,
next line, non-breaking space). -/
def goIsSpace (c : Char) : Bool :=
  c == ' ' || c == Char.ofNat 9 || c == Char.ofNat 10 || c == Char.ofNat 11 ||
    c == Char.ofNat 12 || c == Char.ofNat 13 || c == Char.ofNat 133 || c == Char.ofNat 160

/-- Drop characters satisfying `p` from both ends of a character list,
the behaviour of Go `strings.Trim` with a one-character cut set. -/
def goTrimListWith (p : Char → Bool) (l : List Char) : List Char :=
  ((l.dropWhile p).reverse.dropWhile p).reverse

/-- Go `strings.TrimSpace`. -/
def goTrimSpace (s : String) : String :=
  String.mk (goTrimListWith goIsSpace s.data)

/-- Go `strings.Trim(s, "\"")`: strip double quotes from both ends,
applied to the remote eTag. -/
def goTrimQuotes (s : String) : String :=
  String.mk (goTrimListWith (fun c => c == Char.ofNat 34) s.data)

/-- Go `strings.Contains(s, "-")`: the mark of a multipart-composed eTag. -/
def etagContainsDash (s : String) : Bool :=
  s.data.contains (Char.ofNat 45)

/-- Go `strings.HasPrefix(line, "#")`: first character is a hash mark. -/
def goStartsWithHash (s : String) : Bool :=
  match s.data with
  | [] => false
  | c :: _ => c == Char.ofNat 35

/-- The segment after the last slash of a character list (empty when the
list ends in the reset). -/
def afterLastSlash (l : List Char) : List Char :=
  l.foldl (fun acc c => if c == Char.ofNat 47 then [] else acc ++ [c]) []

/-- Go `filepath.Base` on a Unix host: empty input gives ".", trailing
slashes are stripped, then the last path element is taken; an all-slash
input gives "/". -/
def filepathBase (s : String) : String :=
  if s.data.isEmpty then "."
  else
    let l := (s.data.reverse.dropWhile (fun c => c == Char.ofNat 47)).reverse
    let b := afterLastSlash l
    if b.isEmpty then "/" else String.mk b

/-- `shouldIgnore` from main.go: a path is ignored when some pattern
equals the path itself or equals its base filename. -/
def shouldIgnore (ignorePatterns : List String) (path : String) : Bool :=
  let fileName := filepathBase path
  ignorePatterns.any (fun pattern => pattern == path || pattern == fileName)

/-- `loadSyncIgnoreFile` from main.go, over the lines of the `.syncignore`
file: each line is trimmed; empty or `#`-starting lines are skipped, the
rest are appended to the current pattern list. -/
def loadSyncIgnoreFile (patterns : List String) (lines : List String) : List String :=
  lines.foldl (fun acc raw =>
    let line := goTrimSpace raw
    if line == "" || goStartsWithHash line then acc else acc ++ [line]) patterns

/-- The ignore-pattern setup performed by `main`: when `os.Executable`
succeeds its base filename is appended as an implicit pattern, otherwise
nothing is added; then the `.syncignore` lines are loaded. -/
def setupIgnorePatterns (execResult : Except String String) (lines : List String) :
    List String :=
  let base : List String :=
    match execResult with
    | .ok execPath => [filepathBase execPath]
    | .error _ => []
  loadSyncIgnoreFile base lines

/-- `fileChangedOnS3` from main.go.  Returns the Go pair
`(shouldUpload, err)` with `err` modelled as `Option String`. -/
def fileChangedOnS3 (env : S3Env) (fs : LocalFS) (s3Key localPath : String) :
    Bool × Option String :=
  match env.headObject s3Key with
  | .reqFailure status msg =>
      if status = 404 then (true, none)
      else (false, some ("erro ao verificar objeto S3: " ++ msg))
  | .otherError msg => (false, some ("erro ao verificar objeto S3: " ++ msg))
  | .ok headOut =>
    match fs.stat localPath with
    | .error msg => (false, some ("falha ao obter dados do arquivo local: " ++ msg))
    | .ok fileInfo =>
      if headOut.contentLength ≠ fileInfo.size then (true, none)
      else
        match headOut.lastModified with
        | none => (true, none)
        | some lm =>
          if ¬ lm < fileInfo.modTime then (false, none)
          else if multipartThreshold < fileInfo.size then
            (decide (lm < fileInfo.modTime), none)
          else
            match fs.md5 localPath with
            | .error msg => (false, some ("erro ao calcular hash do arquivo local: " ++ msg))
            | .ok localFileHash =>
              let s3ETag := goTrimQuotes headOut.eTag
              if etagContainsDash s3ETag then (decide (lm < fileInfo.modTime), none)
              else (decide (localFileHash ≠ s3ETag), none)

/-- One file visited by the `filepath.Walk` of `uploadDirectoryToS3`:
absolute path, slash-normalized relative path, and size. -/
structure WalkEntry where
  path : String
  relPath : String
  size : Int
deriving Repr, DecidableEq

/-- The walk body of `uploadDirectoryToS3`: visits each file in order,
skips ignored ones, asks `fileChangedOnS3`, queues an upload task when it
answers `true`, and on an error returns that error from the walk at once
so later entries are never visited.  Returns `(queued tasks, walk error)`. -/
def uploadWalk (env : S3Env) (fs : LocalFS) (patterns : List String) :
    List WalkEntry → List WalkEntry × Option String
  | [] => ([], none)
  | e :: rest =>
    if shouldIgnore patterns e.relPath then uploadWalk env fs patterns rest
    else
      let res := fileChangedOnS3 env fs e.relPath e.path
      match res.2 with
      | some msg => ([], some msg)
      | none =>
        let r := uploadWalk env fs patterns rest
        (if res.1 then e :: r.1 else r.1, r.2)

/-- `uploadDirectoryToS3` from main.go: the queued tasks are all drained
by the workers (`close(tasks); wg.Wait()`) even when the walk failed;
then the walk error takes priority, else a nonempty worker-failure list
makes the phase fail.  `uploadOk` is the per-key PUT outcome oracle.
Returns `(tasks attempted, phase error)`. -/
def uploadDirectoryToS3 (env : S3Env) (fs : LocalFS) (patterns : List String)
    (entries : List WalkEntry) (uploadOk : String → Bool) :
    List WalkEntry × Option String :=
  let w := uploadWalk env fs patterns entries
  let failures := w.1.filter (fun e => ! uploadOk e.relPath)
  match w.2 with
  | some msg => (w.1, some msg)
  | none =>
    if failures.isEmpty then (w.1, none)
    else (w.1, some "erros de upload ocorreram")

/-- The reconciliation loop body of `deleteRemovedFilesFromS3`, over the
remote keys of all pages in listing order: every key absent from
`localFiles` gets a `DeleteObject` call; a removal line is printed only
when that call succeeds (`deleteOk`), a failed delete produces no output
and no error.  Returns `(keys deleted, removal lines printed)`. -/
def reconcileKeys (localFiles : List String) (deleteOk : String → Bool) :
    List String → List String × List String
  | [] => ([], [])
  | key :: rest =>
    let r := reconcileKeys localFiles deleteOk rest
    if localFiles.contains key then r
    else (key :: r.1, if deleteOk key then key :: r.2 else r.2)

/-- `deleteRemovedFilesFromS3` from main.go: a `ListObjectsV2Pages`
failure makes the pass fail; otherwise the page callback always returns
`true`, so every page is consumed and the loop of `reconcileKeys` runs
over all listed keys. -/
def deleteRemovedFilesFromS3 (localFiles : List String)
    (listResult : Except String (List (List String))) (deleteOk : String → Bool) :
    Except String (List String × List String) :=
  match listResult with
  | .error msg => .error ("falha ao deletar arquivos do S3: " ++ msg)
  | .ok pages => .ok (reconcileKeys localFiles deleteOk pages.flatten)

/-- `syncDirectoryWithS3` from main.go: run the upload phase; on its
error return at once (reconciliation is skipped), otherwise run the
reconciliation pass and surface its error, if any. -/
def syncDirectoryWithS3 (env : S3Env) (fs : LocalFS) (patterns : List String)
    (entries : List WalkEntry) (uploadOk : String → Bool) (localFiles : List String)
    (listResult : Except String (List (List String))) (deleteOk : String → Bool) :
    Option String :=
  match (uploadDirectoryToS3 env fs patterns entries uploadOk).2 with
  | some msg => some msg
  | none =>
    match deleteRemovedFilesFromS3 localFiles listResult deleteOk with
    | .error msg => some msg
    | .ok _ => none

/-! Concrete environments used by witnesses and counterexamples. -/

/-- Remote metadata for a 12-byte object last modified at instant 100,
whose eTag is the hash of the REMOTE content. -/
def metaC1 : RemoteMeta := ⟨12, some 100, "0123abcd"⟩

/-- A store answering every HEAD with `metaC1`. -/
def envC1 : S3Env := ⟨fun _ => .ok metaC1⟩

/-- A local file of size 12 modified at instant 100 whose content hash
`"ffff"` DIFFERS from the remote eTag. -/
def fsC1 : LocalFS := ⟨fun _ => .ok ⟨12, 100⟩, fun _ => .ok "ffff"⟩

/-- A store answering every HEAD with a 404 request failure. -/
def envNF : S3Env := ⟨fun _ => .reqFailure 404 "nao encontrado"⟩

/-- Remote metadata for a large object (one byte above the threshold). -/
def metaBig : RemoteMeta := ⟨104857601, some 100, "aabb-17"⟩

/-- A store answering every HEAD with `metaBig`. -/
def envBig : S3Env := ⟨fun _ => .ok metaBig⟩

/-- Stat oracle for a local file one byte above the multipart threshold,
modified at instant 200 (newer than `metaBig`). -/
def statBig : String → Except String FileInfo := fun _ => .ok ⟨104857601, 200⟩

/-- An MD5 oracle that fails: if the change detector ever hashed a large
file, its result would become an error. -/
def md5Fails : String → Except String String := fun _ => .error "md5 nao deveria rodar"

/-- Remote metadata for a small multipart-composed object: the eTag
carries S3 double quotes and a hyphen. -/
def metaDash : RemoteMeta := ⟨12, some 100, "\"abc-3\""⟩

/-- A store answering every HEAD with `metaDash`. -/
def envDash : S3Env := ⟨fun _ => .ok metaDash⟩

/-- A small local file (size 12, modified at 200) whose hash is `"cafe"`. -/
def fsSmall : LocalFS := ⟨fun _ => .ok ⟨12, 200⟩, fun _ => .ok "cafe"⟩

/-- A store where HEAD on `a.txt` fails with a non-404 error and every
other HEAD reports not-found. -/
def envC6 : S3Env :=
  ⟨fun k => if k == "a.txt" then .otherError "acesso negado"
    else .reqFailure 404 "nao encontrado"⟩

/-- A store where HEAD on `c.txt` reports not-found and every other HEAD
fails with a non-404 error. -/
def envW6 : S3Env :=
  ⟨fun k => if k == "c.txt" then .reqFailure 404 "nao ha"
    else .otherError "acesso negado"⟩

/-- A healthy small local file used by the walk scenarios. -/
def fsC6 : LocalFS := ⟨fun _ => .ok ⟨5, 10⟩, fun _ => .ok "aaaa"⟩

/-- Walk entry for local file `a.txt`. -/
def entA : WalkEntry := ⟨"/root/a.txt", "a.txt", 5⟩

/-- Walk entry for local file `b.txt`. -/
def entB : WalkEntry := ⟨"/root/b.txt", "b.txt", 5⟩

/-- Walk entry for local file `c.txt`. -/
def entC : WalkEntry := ⟨"/root/c.txt", "c.txt", 5⟩

/-! Helper lemmas shared by the claim theorems. -/

/-- Loading `.syncignore` lines appends exactly the trimmed, nonempty,
non-comment lines to the given pattern list. -/
theorem loadSyncIgnoreFile_eq_aux (lines : List String) :
    ∀ patterns : List String,
      loadSyncIgnoreFile patterns lines =
        patterns ++ (lines.map goTrimSpace).filter
          (fun line => !(line == "" || goStartsWithHash line)) := by
  induction lines with
  | nil => intro patterns; simp [loadSyncIgnoreFile]
  | cons l rest ih =>
    intro patterns
    show loadSyncIgnoreFile
      (if goTrimSpace l == "" || goStartsWithHash (goTrimSpace l) then patterns
       else patterns ++ [goTrimSpace l]) rest = _
    rw [List.map_cons, List.filter_cons]
    by_cases h : (goTrimSpace l == "" || goStartsWithHash (goTrimSpace l)) = true
    · rw [if_pos h, ih, if_neg (by simp [h])]
    · rw [if_neg h, ih, if_pos (by simp [h]), List.append_assoc, List.singleton_append]

/-- The keys deleted by the reconciliation loop are the listed keys that
are absent from the local set, in listing order. -/
theorem reconcileKeys_issued (L : List String) (f : String → Bool) (ks : List String) :
    (reconcileKeys L f ks).1 = ks.filter (fun k => ! L.contains k) := by
  induction ks with
  | nil => rfl
  | cons k rest ih =>
    rw [List.filter_cons]
    by_cases h : k ∈ L
    · have hc : L.contains k = true := by simp [List.contains, h]
      show (if L.contains k = true then reconcileKeys L f rest else _).1 = _
      rw [if_pos hc, if_neg (by simp [List.contains, h]), ih]
    · have hc : ¬ L.contains k = true := by simp [List.contains, h]
      have hb : (! L.contains k) = true := by simp [List.contains, h]
      show (if L.contains k = true then reconcileKeys L f rest else _).1 = _
      rw [if_neg hc, if_pos hb]
      show k :: (reconcileKeys L f rest).1 = _
      rw [ih]

/-- The removal lines printed by the reconciliation loop are exactly the
issued deletes whose `DeleteObject` call succeeded. -/
theorem reconcileKeys_logs (L : List String) (f : String → Bool) (ks : List String) :
    (reconcileKeys L f ks).2 = (ks.filter (fun k => ! L.contains k)).filter f := by
  induction ks with
  | nil => rfl
  | cons k rest ih =>
    rw [List.filter_cons]
    by_cases h : k ∈ L
    · have hc : L.contains k = true := by simp [List.contains, h]
      show (if L.contains k = true then reconcileKeys L f rest else _).2 = _
      rw [if_pos hc, if_neg (by simp [List.contains, h]), ih]
    · have hc : ¬ L.contains k = true := by simp [List.contains, h]
      have hb : (! L.contains k) = true := by simp [List.contains, h]
      show (if L.contains k = true then reconcileKeys L f rest else _).2 = _
      rw [if_neg hc, if_pos hb, List.filter_cons]
      show (if f k = true then k :: (reconcileKeys L f rest).2
        else (reconcileKeys L f rest).2) = _
      by_cases hf : f k = true
      · rw [if_pos hf, if_pos hf, ih]
      · rw [if_neg hf, if_neg hf, ih]

/-- When `fileChangedOnS3` reports an error on a non-ignored entry, the
walk stops there: the queue holds only the upload-needing entries seen
before the failure and the walk returns that error; entries after the
failing one are never reached. -/
theorem uploadWalk_error_aux (env : S3Env) (fs : LocalFS) (patterns : List String)
    (e : WalkEntry) (rest : List WalkEntry) (msg : String)
    (hig : shouldIgnore patterns e.relPath = false)
    (herr : (fileChangedOnS3 env fs e.relPath e.path).2 = some msg) :
    ∀ pre : List WalkEntry,
      (∀ x ∈ pre, shouldIgnore patterns x.relPath = false →
        (fileChangedOnS3 env fs x.relPath x.path).2 = none) →
      uploadWalk env fs patterns (pre ++ e :: rest) =
        (pre.filter (fun x => ! shouldIgnore patterns x.relPath
            && (fileChangedOnS3 env fs x.relPath x.path).1), some msg) := by
  intro pre
  induction pre with
  | nil =>
    intro _
    show uploadWalk env fs patterns (e :: rest) = _
    simp [uploadWalk, hig, herr]
  | cons x pre ih =>
    intro hpre
    have ihx := ih (fun y hy => hpre y (List.mem_cons_of_mem _ hy))
    show uploadWalk env fs patterns (x :: (pre ++ e :: rest)) = _
    rw [List.filter_cons]
    by_cases hx : shouldIgnore patterns x.relPath = true
    · simp [uploadWalk, hx, ihx]
    · have hx2 : (fileChangedOnS3 env fs x.relPath x.path).2 = none :=
        hpre x (List.mem_cons_self _ _) (by simpa using hx)
      simp [uploadWalk, hx, hx2, ihx]

/-! Claim theorems. -/

/-- Claim C1: whenever the remote object exists, its size equals the
local size and the local modification time is not after (hence at most)
the remote last-modified time, `fileChangedOnS3` answers upload=false
with no error, for EVERY md5 oracle and hence regardless of the local
content. -/
theorem needsUpload_skips_when_local_not_newer (env : S3Env) (fs : LocalFS)
    (key path : String) (m : RemoteMeta) (st : FileInfo) (t : Int)
    (hhead : env.headObject key = .ok m)
    (hstat : fs.stat path = .ok st)
    (hsz : m.contentLength = st.size)
    (hlm : m.lastModified = some t)
    (hle : st.modTime ≤ t) :
    fileChangedOnS3 env fs key path = (false, none) := by
  unfold fileChangedOnS3
  rw [hhead, hstat]
  simp [hsz, hlm, not_lt.mpr hle]

/-- Claim C1 witness: a 12-byte local file with mod time equal to the
remote last-modified instant is skipped even though its hash "ffff"
differs from the remote eTag "0123abcd". -/
theorem needsUpload_skips_when_local_not_newer_holds :
    fileChangedOnS3 envC1 fsC1 "notes.txt" "/dir/notes.txt" = (false, none) :=
  needsUpload_skips_when_local_not_newer envC1 fsC1 "notes.txt" "/dir/notes.txt"
    metaC1 ⟨12, 100⟩ 100 rfl rfl rfl rfl (by decide)

/-- Claim C2: when the HEAD request fails with HTTP status 404, the
change detector answers upload=true with no error, for EVERY local
filesystem oracle, so no local metadata, content, or further remote
field is consulted. -/
theorem needsUpload_uploads_when_remote_absent (env : S3Env) (fs : LocalFS)
    (key path msg : String)
    (h : env.headObject key = .reqFailure 404 msg) :
    fileChangedOnS3 env fs key path = (true, none) := by
  unfold fileChangedOnS3
  rw [h]
  simp

/-- Claim C2 witness: against the 404-answering store, a file whose stat
and md5 oracles both fail is still reported as upload=true, error-free. -/
theorem needsUpload_uploads_when_remote_absent_holds :
    fileChangedOnS3 envNF ⟨fun _ => .error "stat falhou", md5Fails⟩
      "novo.txt" "/dir/novo.txt" = (true, none) :=
  needsUpload_uploads_when_remote_absent envNF
    ⟨fun _ => .error "stat falhou", md5Fails⟩ "novo.txt" "/dir/novo.txt"
    "nao encontrado" rfl

/-- Claim C3: when the listing succeeds, the reconciliation pass issues
a delete for a key exactly when that key is listed remotely and absent
from the local set; a key present in both sets is never deleted. -/
theorem reconcile_deletes_exactly_set_difference (L : List String)
    (pages : List (List String)) (f : String → Bool) (k : String)
    (out : List String × List String)
    (hout : deleteRemovedFilesFromS3 L (.ok pages) f = .ok out) :
    k ∈ out.1 ↔ (k ∈ pages.flatten ∧ k ∉ L) := by
  have : out = reconcileKeys L f pages.flatten := by
    simpa [deleteRemovedFilesFromS3] using hout.symm
  subst this
  rw [reconcileKeys_issued, List.mem_filter]
  exact and_congr_right fun _ => by simp

/-- Claim C3 witness: with local set containing only `keep.txt` and a
single remote page listing `keep.txt` and `old.txt`, the pass deletes
`old.txt` (listed and locally absent). -/
theorem reconcile_deletes_exactly_set_difference_holds :
    "old.txt" ∈ (reconcileKeys ["keep.txt"] (fun _ => true)
        [["keep.txt", "old.txt"]].flatten).1 ↔
      ("old.txt" ∈ [["keep.txt", "old.txt"]].flatten ∧ "old.txt" ∉ ["keep.txt"]) :=
  reconcile_deletes_exactly_set_difference ["keep.txt"] [["keep.txt", "old.txt"]]
    (fun _ => true) "old.txt" _ rfl

/-- Claim C4: for a local file strictly above the multipart threshold
(remote present, equal sizes, last-modified present), the result of
`fileChangedOnS3` is upload iff the local mod time is strictly after the
remote one, stated for EVERY md5 oracle `g`: the right-hand side never
mentions `g`, so the hash computation is unreachable. -/
theorem needsUpload_large_file_skips_hash (env : S3Env)
    (stat0 : String → Except String FileInfo) (g : String → Except String String)
    (key path : String) (m : RemoteMeta) (st : FileInfo) (t : Int)
    (hhead : env.headObject key = .ok m)
    (hstat : stat0 path = .ok st)
    (hsz : m.contentLength = st.size)
    (hlm : m.lastModified = some t)
    (hbig : multipartThreshold < st.size) :
    fileChangedOnS3 env ⟨stat0, g⟩ key path = (decide (t < st.modTime), none) := by
  unfold fileChangedOnS3
  rw [hhead]
  dsimp only
  rw [hstat]
  simp [hsz, hlm, hbig]

/-- Claim C4 witness: a file one byte above the threshold, newer than
the remote copy, is uploaded without error even though its md5 oracle
FAILS — the hash is provably never computed. -/
theorem needsUpload_large_file_skips_hash_holds :
    fileChangedOnS3 envBig ⟨statBig, md5Fails⟩ "big.bin" "/dir/big.bin" =
      (decide ((100 : Int) < (200 : Int)), none) :=
  needsUpload_large_file_skips_hash envBig statBig md5Fails "big.bin" "/dir/big.bin"
    metaBig ⟨104857601, 200⟩ 100 rfl rfl rfl rfl (by decide)

/-- Claim C5: for a small file (size at most the threshold, equal sizes,
remote last-modified present, local strictly newer, md5 available): if
the de-quoted remote eTag contains a hyphen the detector answers upload
(local-newer rule, no hash comparison); otherwise it answers upload
exactly when the local hash differs from the de-quoted eTag. -/
theorem needsUpload_small_newer_hash_rule (env : S3Env) (fs : LocalFS)
    (key path : String) (m : RemoteMeta) (st : FileInfo) (t : Int) (h : String)
    (hhead : env.headObject key = .ok m)
    (hstat : fs.stat path = .ok st)
    (hsz : m.contentLength = st.size)
    (hlm : m.lastModified = some t)
    (hnewer : t < st.modTime)
    (hsmall : st.size ≤ multipartThreshold)
    (hmd5 : fs.md5 path = .ok h) :
    fileChangedOnS3 env fs key path =
      (if etagContainsDash (goTrimQuotes m.eTag) then (true, none)
       else (decide (h ≠ goTrimQuotes m.eTag), none)) := by
  unfold fileChangedOnS3
  rw [hhead, hstat, hmd5]
  simp [hsz, hlm, hnewer, not_lt.mpr hsmall]

/-- Claim C5 witness: a newer small file against a multipart-composed
remote eTag `"abc-3"` (quotes stripped, hyphen inside) is uploaded with
no hash comparison. -/
theorem needsUpload_small_newer_hash_rule_holds :
    fileChangedOnS3 envDash fsSmall "doc.txt" "/dir/doc.txt" =
      (if etagContainsDash (goTrimQuotes metaDash.eTag) then (true, none)
       else (decide ("cafe" ≠ goTrimQuotes metaDash.eTag), none)) :=
  needsUpload_small_newer_hash_rule envDash fsSmall "doc.txt" "/dir/doc.txt"
    metaDash ⟨12, 200⟩ 100 "cafe" rfl rfl rfl rfl (by decide) (by decide) rfl

/-- Claim C6 counterexample: with HEAD failing (non-404) on `a.txt` and
`b.txt` remotely absent, the claim predicts `b.txt` is still uploaded
and the cycle survives; instead the walk queues NOTHING — `b.txt` is
never considered — and the whole sync cycle reports the HEAD error. -/
theorem head_error_aborts_walk_cex :
    (uploadWalk envC6 fsC6 [] [entA, entB]).1 = [] ∧
    (uploadWalk envC6 fsC6 [] [entA, entB]).2
      = some "erro ao verificar objeto S3: acesso negado" ∧
    syncDirectoryWithS3 envC6 fsC6 [] [entA, entB] (fun _ => true) [] (.ok [[]])
      (fun _ => true) = some "erro ao verificar objeto S3: acesso negado" :=
  ⟨rfl, rfl, rfl⟩

/-- Claim C6 as amended: a non-404 HEAD failure on one file aborts the
directory walk — entries after the failing one are never queued, the
upload phase returns that error, and the sync cycle reports failure
(reconciliation is skipped); entries processed before the failure that
needed upload are still in the queue and get drained. -/
theorem head_error_aborts_walk_and_cycle (env : S3Env) (fs : LocalFS)
    (patterns : List String) (pre : List WalkEntry) (e : WalkEntry)
    (rest : List WalkEntry) (msg : String) (uploadOk : String → Bool)
    (localFiles : List String) (listResult : Except String (List (List String)))
    (deleteOk : String → Bool)
    (hpre : ∀ x ∈ pre, shouldIgnore patterns x.relPath = false →
      (fileChangedOnS3 env fs x.relPath x.path).2 = none)
    (hig : shouldIgnore patterns e.relPath = false)
    (herr : (fileChangedOnS3 env fs e.relPath e.path).2 = some msg) :
    uploadWalk env fs patterns (pre ++ e :: rest) =
      (pre.filter (fun x => ! shouldIgnore patterns x.relPath
          && (fileChangedOnS3 env fs x.relPath x.path).1), some msg) ∧
    (uploadDirectoryToS3 env fs patterns (pre ++ e :: rest) uploadOk).2 = some msg ∧
    syncDirectoryWithS3 env fs patterns (pre ++ e :: rest) uploadOk localFiles
      listResult deleteOk = some msg := by
  have hw := uploadWalk_error_aux env fs patterns e rest msg hig herr pre hpre
  refine ⟨hw, ?_, ?_⟩
  · simp [uploadDirectoryToS3, hw]
  · simp [syncDirectoryWithS3, uploadDirectoryToS3, hw]

/-- Claim C6 amended witness: `c.txt` (remote-absent, processed first)
is queued, the HEAD failure on `a.txt` then aborts the walk before
`b.txt`, and the cycle reports the error. -/
theorem head_error_aborts_walk_and_cycle_holds :
    uploadWalk envW6 fsC6 [] ([entC] ++ entA :: [entB]) =
      ([entC].filter (fun x => ! shouldIgnore [] x.relPath
          && (fileChangedOnS3 envW6 fsC6 x.relPath x.path).1),
        some "erro ao verificar objeto S3: acesso negado") ∧
    (uploadDirectoryToS3 envW6 fsC6 [] ([entC] ++ entA :: [entB]) (fun _ => true)).2
      = some "erro ao verificar objeto S3: acesso negado" ∧
    syncDirectoryWithS3 envW6 fsC6 [] ([entC] ++ entA :: [entB]) (fun _ => true) []
      (.ok [[]]) (fun _ => true) = some "erro ao verificar objeto S3: acesso negado" :=
  head_error_aborts_walk_and_cycle envW6 fsC6 [] [entC] entA [entB]
    "erro ao verificar objeto S3: acesso negado" (fun _ => true) [] (.ok [[]])
    (fun _ => true) (by decide) rfl rfl

/-- Claim C7 counterexample: with no local files, one remote page
listing `a.txt` and `b.txt`, and the delete of `a.txt` failing, the
pass still issues both deletes and returns success, but the failure of
`a.txt` is NOT logged: the only removal line printed is for `b.txt`. -/
theorem delete_failure_unlogged_cex :
    deleteRemovedFilesFromS3 [] (.ok [["a.txt", "b.txt"]]) (fun k => k != "a.txt") =
      .ok (["a.txt", "b.txt"], ["b.txt"]) ∧
    "a.txt" ∉ (reconcileKeys [] (fun k => k != "a.txt") ["a.txt", "b.txt"]).2 :=
  ⟨rfl, by decide⟩

/-- Claim C7 as amended: an individual DELETE failure is silently
ignored (only successful deletions print a removal line) and is
non-fatal — the issued deletes are the full remote-minus-local
difference whatever the delete outcomes, and the pass always reports
success when the listing succeeded. -/
theorem delete_failures_silent_and_nonfatal (L : List String)
    (pages : List (List String)) (f : String → Bool) :
    deleteRemovedFilesFromS3 L (.ok pages) f =
      .ok (pages.flatten.filter (fun k => ! L.contains k),
           (pages.flatten.filter (fun k => ! L.contains k)).filter f) := by
  show Except.ok (reconcileKeys L f pages.flatten) = _
  rw [show reconcileKeys L f pages.flatten =
    ((reconcileKeys L f pages.flatten).1, (reconcileKeys L f pages.flatten).2) from rfl]
  rw [reconcileKeys_issued, reconcileKeys_logs]

/-- Claim C8 counterexample: when `os.Executable` fails at startup the
executable's name is NOT added to the patterns, so `shouldIgnore`
answers false for the executable's filename — contradicting "always
included". -/
theorem executable_pattern_missing_cex :
    setupIgnorePatterns (.error "falha ao obter executavel") [] = [] ∧
    shouldIgnore (setupIgnorePatterns (.error "falha ao obter executavel") [])
      "gui-sync" = false := by
  decide

/-- Claim C8 as amended: whenever `os.Executable` succeeds at startup,
the executable's base filename is appended as an implicit pattern,
survives `.syncignore` loading, and `shouldIgnore` returns true for it
in every cycle, so the tool never uploads itself. -/
theorem executable_ignored_when_lookup_succeeds (execPath : String)
    (lines : List String) :
    shouldIgnore (setupIgnorePatterns (.ok execPath) lines) (filepathBase execPath)
      = true := by
  have hmem : filepathBase execPath ∈ setupIgnorePatterns (.ok execPath) lines := by
    unfold setupIgnorePatterns
    rw [loadSyncIgnoreFile_eq_aux]
    simp
  unfold shouldIgnore
  rw [List.any_eq_true]
  exact ⟨_, hmem, by simp⟩

/-- Claim C9: on every input, `fileChangedOnS3` either returns no error
or returns the boolean false — it never signals an error together with
upload=true, so a caller checking the error first never sees a stale
upload decision. -/
theorem needsUpload_never_error_and_upload (env : S3Env) (fs : LocalFS)
    (key path : String) :
    (fileChangedOnS3 env fs key path).2 = none ∨
      (fileChangedOnS3 env fs key path).1 = false := by
  unfold fileChangedOnS3
  repeat' split <;> try simp

/-- Claim C10: loading the `.syncignore` lines appends to the pattern
list exactly the whitespace-trimmed lines that are nonempty and do not
start with '#'; every other line is skipped. -/
theorem syncignore_lines_filtered_and_trimmed (patterns : List String)
    (lines : List String) :
    loadSyncIgnoreFile patterns lines =
      patterns ++ (lines.map goTrimSpace).filter
        (fun line => !(line == "" || goStartsWithHash line)) :=
  loadSyncIgnoreFile_eq_aux lines patterns

end GuiSync
